import Mathlib

/-!
Verification development for the `notification_bot` repository
(single source file `src/main.rs`).

The development shallowly embeds the bot's dialogue handler
(`dialogue_handler`, `main.rs` lines 125-497), its shared state
(`AppState`, `BotState`, lines 29-41), the periodic monitoring tick
spawned by `/start` (lines 241-280), and the host-file load logic
(lines 100-109 and 426-447) as pure Lean functions.  External
collaborators (the chat transport, the probe executables, the wall
clock) are modelled as explicit parameters (`Env`), and their effects
(messages sent, probes launched, files written, tasks spawned) are
returned as explicit data (`Effects`).
-/

namespace NotifBot

/-! ### String utilities mirroring the Rust `str` primitives used by the source -/

/-- One character of ASCII lowercasing, as Rust `char::to_ascii_lowercase`
(used via `str::to_ascii_lowercase` in the `/config` branch, `main.rs` line 342). -/
def asciiLowerChar (c : Char) : Char :=
  if 'A' ≤ c ∧ c ≤ 'Z' then Char.ofNat (c.toNat + 32) else c

/-- Rust `str::to_ascii_lowercase`. -/
def asciiLowerStr (s : String) : String := String.mk (s.data.map asciiLowerChar)

/-- Strip one carriage return from the head of a reversed line accumulator:
Rust `str::lines` treats `\r\n` as a line terminator. -/
def stripCR (acc : List Char) : List Char :=
  match acc with
  | '\r' :: t => t
  | _ => acc

/-- Worker for `rustLines`: `acc` is the current (reversed) line. -/
def rustLinesAux : List Char → List Char → List String
  | [], acc => if acc.isEmpty then [] else [String.mk acc.reverse]
  | c :: rest, acc =>
    if c = '\n' then String.mk (stripCR acc).reverse :: rustLinesAux rest []
    else rustLinesAux rest (c :: acc)

/-- Rust `str::lines`: split at `\n` (or `\r\n`); a final line terminator
produces no trailing empty line. -/
def rustLines (s : String) : List String := rustLinesAux s.data []

/-- Rust `line.trim().is_empty()` (the source only ever asks whether the
trimmed line is empty, so we model just that). -/
def isBlank (l : String) : Bool := l.data.all Char.isWhitespace

/-- `main.rs` lines 193-197: drop blank lines from one probe result and
re-join with newlines. -/
def filterBlankLines (s : String) : String :=
  String.intercalate "\n" ((rustLines s).filter (fun l => !(isBlank l)))

/-- `main.rs` lines 206-212: for each per-host response, skip its first
line, re-join, append two newlines, and concatenate everything. -/
def combineResponses (rs : List String) : String :=
  String.join (rs.map (fun o => String.intercalate "\n" ((rustLines o).drop 1) ++ "\n\n"))

/-- Substring test on character lists (Rust `str::contains`),
used only to state claims about what a report does or does not mention. -/
def listContainsSub (sub : List Char) : List Char → Bool
  | [] => sub.isEmpty
  | a :: t => sub.isPrefixOf (a :: t) || listContainsSub sub t

/-- Substring test on strings. -/
def strContainsSub (s sub : String) : Bool := listContainsSub sub.data s.data

/-- Rust `str::starts_with` for string prefixes. -/
def startsWith (s pre : String) : Bool := pre.data.isPrefixOf s.data

/-- Rust `str::parse::<u64>()`: optional leading `+`, at least one ASCII
digit, value must fit in 64 bits. -/
def parseU64 (l : List Char) : Option Nat :=
  let l2 := match l with
    | '+' :: t => t
    | _ => l
  if l2 ≠ [] ∧ l2.all Char.isDigit then
    let v := l2.foldl (fun acc c => acc * 10 + (c.toNat - 48)) 0
    if v < 2 ^ 64 then some v else none
  else none

/-- Split a character list at every occurrence of `c`; returns the first
segment and the remaining segments (Rust `str::split` keeps empty pieces). -/
def splitOnChar (c : Char) : List Char → List Char × List (List Char)
  | [] => ([], [])
  | x :: xs =>
    let r := splitOnChar c xs
    if x = c then ([], r.1 :: r.2) else (x :: r.1, r.2)

/-- Rust `text.split(" ").collect::<Vec<_>>()` (`main.rs` line 343). -/
def splitArgs (c : Char) (l : List Char) : List (List Char) :=
  (splitOnChar c l).1 :: (splitOnChar c l).2

/-- A single-quote character as a string (used in the `/remove` replies). -/
def squote : String := String.mk [Char.ofNat 39]

/-! ### The host registry (`HashMap<String, bool>`) modelled as an association list -/

/-- `HashMap::contains`-style membership used by the model. -/
def hmContains (m : List (String × Bool)) (k : String) : Bool :=
  m.any (fun p => p.1 == k)

/-- Lookup of a host's `online` flag. -/
def hmLookup (m : List (String × Bool)) (k : String) : Option Bool :=
  (m.find? (fun p => p.1 == k)).map Prod.snd

/-- `HashMap::insert`: replace the value when the key is present,
otherwise add the binding. -/
def hmInsert (m : List (String × Bool)) (k : String) (v : Bool) : List (String × Bool) :=
  if hmContains m k then m.map (fun p => if p.1 == k then (k, v) else p)
  else m ++ [(k, v)]

/-- `HashMap::remove` (its effect on the map; absence of the key leaves
the map unchanged, which theorem `hmRemove_absent` below makes explicit). -/
def hmRemove (m : List (String × Bool)) (k : String) : List (String × Bool) :=
  m.filter (fun p => !(p.1 == k))

/-- `main.rs` lines 101-108 and 440-447: read the hosts file, split into
lines, deduplicate through a `HashSet`, and default every host to
`online = true`. -/
def loadHosts (contents : String) : List (String × Bool) :=
  (rustLines contents).dedup.map (fun h => (h, true))

/-! ### Probe outcomes and the environment of external collaborators -/

/-- Outcome of running an external probe process (`Command::output()`):
either the process ran (with its exit status and captured streams) or it
failed to spawn. -/
inductive ProbeResult where
  | ok (success : Bool) (stdout : String) (stderr : String)
  | spawnErr (err : String)
deriving DecidableEq

/-- External collaborators of one handler invocation: the two probe
executables (`/bin/nmap` for `/status`, `ping` for the periodic tick),
whether the oneshot cancellation send succeeds (the receiver is still
alive), and the formatted elapsed-time figure of a scan round. -/
structure Env where
  nmap : String → ProbeResult
  ping : String → ProbeResult
  sendOk : Bool
  elapsed : String

/-! ### Shared application state (`main.rs` lines 19-50) -/

/-- `BotConfig` (`main.rs` lines 19-27). -/
structure BotConfig where
  ping_interval : Nat
deriving DecidableEq

/-- `AppState` (`main.rs` lines 29-35); the hosts-file path is modelled by
keeping the file's contents in `World.hostsFile`. -/
structure AppState where
  allowed_chats : List Int
  hosts : List (String × Bool)
  password : String
deriving DecidableEq

/-- A periodic monitoring task spawned by `/start`: the owning chat and
the tick interval captured from the config at spawn time
(`main.rs` lines 236 and 241-280). -/
structure SpawnedTask where
  chat : Int
  interval : Nat
deriving DecidableEq

/-- `BotState` (`main.rs` lines 36-41); `task = some t` models
`task: Some(sender)` where the oneshot sender belongs to loop `t`. -/
structure BotState where
  task : Option SpawnedTask
  chat_id : Option Int
  config : BotConfig
deriving DecidableEq

/-- The whole mutable world: the two shared state blocks, the durable
hosts file and config file, and the periodic loops that have been spawned
and have not yet run their cleanup. -/
structure World where
  app : AppState
  bot : BotState
  hostsFile : String
  configFile : BotConfig
  running : List SpawnedTask
deriving DecidableEq

/-- `DialogueState` (`main.rs` lines 43-50). -/
inductive DialogueState where
  | Default
  | WaitingForPassword
  | WaitingForHostAdd
  | WaitingForHostRemove
deriving DecidableEq

/-- One inbound chat message. -/
structure Msg where
  chat : Int
  text : String
deriving DecidableEq

/-- Observable effects of one handler invocation: messages sent through
the chat transport, hosts probed by a `/status` scan, number of writes to
the hosts file and to the config file, and periodic tasks spawned. -/
structure Effects where
  sent : List (Int × String)
  probed : List String
  hostsWrites : Nat
  configWrites : Nat
  spawned : List SpawnedTask
deriving DecidableEq

/-- No effects. -/
def Effects.empty : Effects := ⟨[], [], 0, 0, []⟩

/-! ### The `/status` scan fan-out (`main.rs` lines 157-219) -/

/-- One spawned probe task (`main.rs` lines 167-184): classify the nmap
outcome into the `(bool, String)` pair the source builds. -/
def statusEntry (nmap : String → ProbeResult) (ip : String) : Bool × String :=
  match nmap ip with
  | .ok success stdout stderr =>
    if success then (true, "Host " ++ ip ++ ": " ++ stdout)
    else (false, "Host " ++ ip ++ " failed: " ++ stderr)
  | .spawnErr e => (false, "PING FAILED TO HOST -> " ++ ip ++ ", error -> " ++ e)

/-- The join loop (`main.rs` lines 188-202): every handle is awaited and
its blank-line-filtered text pushed onto `responses`, one per host. -/
def statusResponses (nmap : String → ProbeResult) (hosts : List (String × Bool)) : List String :=
  hosts.foldl (fun acc e => acc ++ [filterBlankLines (statusEntry nmap e.1).2]) []

/-- The final aggregated report (`main.rs` lines 206-217). -/
def statusReport (env : Env) (hosts : List (String × Bool)) : String :=
  combineResponses (statusResponses env.nmap hosts) ++
    "Nmap scan finnished in " ++ env.elapsed ++ " seconds"

/-- The `/status` branch: snapshot the registry, fan out, join, send the
combined report.  The world is left unchanged. -/
def handleStatus (env : Env) (chat : Int) (w : World) : World × DialogueState × Effects :=
  (w, .Default,
    { Effects.empty with
        sent := [(chat, statusReport env w.app.hosts)]
        probed := w.app.hosts.map Prod.fst })

/-! ### `/start`, `/stop` and the periodic loop (`main.rs` lines 220-297) -/

/-- The `/start` branch (`main.rs` lines 220-285): reject when the task
slot is occupied; otherwise record the owning chat, occupy the slot, and
spawn the periodic loop with the interval captured from the current
config. -/
def handleStart (chat : Int) (w : World) : World × DialogueState × Effects :=
  match w.bot.task with
  | some _ =>
    (w, .Default, { Effects.empty with sent := [(chat, "Task is already running!")] })
  | none =>
    let t : SpawnedTask := ⟨chat, w.bot.config.ping_interval⟩
    ({ w with
        bot := { w.bot with task := some t, chat_id := some chat }
        running := w.running ++ [t] },
      .Default,
      { Effects.empty with
          sent := [(chat, "Notification Bot started. Your chat ID is: " ++ toString chat)]
          spawned := [t] })

/-- The `/stop` branch (`main.rs` lines 286-297): `task.take()` empties
the slot; the send outcome only selects the reply text. -/
def handleStop (env : Env) (chat : Int) (w : World) : World × DialogueState × Effects :=
  match w.bot.task with
  | some _ =>
    let w2 := { w with bot := { w.bot with task := none } }
    if env.sendOk then
      (w2, .Default, { Effects.empty with sent := [(chat, "Task stopped.")] })
    else
      (w2, .Default, { Effects.empty with sent := [(chat, "Failed to stop task.")] })
  | none =>
    (w, .Default, { Effects.empty with sent := [(chat, "No task is running.")] })

/-- One step of the periodic loop's per-host work (`main.rs` lines
254-274): skip offline hosts; on a non-zero ping exit, mark the host
offline and notify the owning chat with the captured stdout; a spawn
error is only logged. -/
def tickStep (ping : String → ProbeResult) (chat : Int)
    (acc : List (String × Bool) × List (Int × String)) (e : String × Bool) :
    List (String × Bool) × List (Int × String) :=
  if e.2 then
    match ping e.1 with
    | .ok success stdout _ =>
      if success then acc
      else (hmInsert acc.1 e.1 false, acc.2 ++ [(chat, "HOST OFFLINE -> STDOUT " ++ stdout)])
    | .spawnErr _ => acc
  else acc

/-- One timer tick of the periodic loop (`main.rs` lines 249-275): take a
snapshot of the registry, then walk it, updating the shared registry and
sending notifications as each probe completes. -/
def runTick (ping : String → ProbeResult) (t : SpawnedTask) (w : World) :
    World × List (Int × String) :=
  let snapshot := w.app.hosts
  let r := snapshot.foldl (tickStep ping t.chat) (snapshot, [])
  ({ w with app := { w.app with hosts := r.1 } }, r.2)

/-- The loop's own cleanup on exit (`main.rs` lines 278-279): the loop
ends and the task slot is written to `None`. -/
def loopCleanup (t : SpawnedTask) (w : World) : World :=
  { w with running := w.running.erase t, bot := { w.bot with task := none } }

/-! ### Remaining command branches -/

/-- The `/add` branch (`main.rs` lines 298-304): prompt and move the
dialogue to `WaitingForHostAdd`. -/
def handleAddPrompt (chat : Int) (w : World) : World × DialogueState × Effects :=
  (w, .WaitingForHostAdd,
    { Effects.empty with sent := [(chat, "Enter hostname you want to add.")] })

/-- The `/remove` branch (`main.rs` lines 305-323): list current hosts and
move the dialogue to `WaitingForHostRemove`. -/
def handleRemovePrompt (chat : Int) (w : World) : World × DialogueState × Effects :=
  let hostsString := String.intercalate "\n" (w.app.hosts.map Prod.fst)
  (w, .WaitingForHostRemove,
    { Effects.empty with sent := [(chat, "Enter hostname you want to remove.\n" ++ hostsString)] })

/-- The `/hosts` branch (`main.rs` lines 324-340). -/
def handleHosts (chat : Int) (w : World) : World × DialogueState × Effects :=
  let hostsString := String.intercalate "\n"
    ((w.app.hosts.map Prod.fst).enum.map (fun p => " " ++ toString (p.1 + 1) ++ ": " ++ p.2))
  (w, .Default, { Effects.empty with sent := [(chat, "Hosts: \n " ++ hostsString)] })

/-- The `/config` help text (`main.rs` lines 394-397). -/
def configHelp : String :=
  "/config list     - Show current config \n /config edit <field> <value>     - Update config field"

/-- Rust `format!("{:?}", bot_config)` for `BotConfig`. -/
def configRepr (c : BotConfig) : String :=
  "BotConfig \x7b ping_interval: " ++ toString c.ping_interval ++ " \x7d"

/-- The `/config` branch (`main.rs` lines 341-401).  On `edit`, the
config is updated in shared state and rewritten to the config file (the
rewrite happens even when the field or value was invalid, exactly as in
the source).  The `parse::<u64>()` error display is modelled by its fixed
text for a non-numeric input. -/
def handleConfig (chat : Int) (text : String) (w : World) : World × DialogueState × Effects :=
  let args := splitArgs ' ' (asciiLowerStr text).data
  if 1 < args.length then
    if args.getD 1 [] = "edit".data then
      if 4 ≤ args.length then
        let field := args.getD 2 []
        let value := args.getD 3 []
        let r : BotConfig × String :=
          if field = "ping_interval".data then
            match parseU64 value with
            | some v => (⟨v⟩, "Ping interval changed to " ++ toString v)
            | none => (w.bot.config, "Invalid value: invalid digit found in string")
          else (w.bot.config, "Invalid arguments")
        ({ w with bot := { w.bot with config := r.1 }, configFile := r.1 },
          .Default,
          { Effects.empty with sent := [(chat, r.2)], configWrites := 1 })
      else (w, .Default, { Effects.empty with sent := [(chat, "Not enought arguments")] })
    else if args.getD 1 [] = "list".data then
      (w, .Default, { Effects.empty with sent := [(chat, configRepr w.bot.config)] })
    else (w, .Default, { Effects.empty with sent := [(chat, "Invalid input")] })
  else (w, .Default, { Effects.empty with sent := [(chat, configHelp)] })

/-- The password check (`main.rs` lines 403-424). -/
def handlePassword (chat : Int) (text : String) (w : World) : World × DialogueState × Effects :=
  if text = w.app.password then
    ({ w with app := { w.app with allowed_chats := w.app.allowed_chats ++ [chat] } },
      .Default,
      { Effects.empty with
          sent := [(chat,
            "Password accepted! You can now use /start, /stop, /status, /hosts, /add, /remove.")] })
  else
    (w, .WaitingForPassword,
      { Effects.empty with sent := [(chat, "Incorrect password. Try again.")] })

/-- The hostname-add dialogue step (`main.rs` lines 426-456): append a
newline plus the text to the hosts file, then reload the in-memory
registry from the file. -/
def handleHostAdd (chat : Int) (text : String) (w : World) : World × DialogueState × Effects :=
  let newFile := w.hostsFile ++ "\n" ++ text
  ({ w with hostsFile := newFile, app := { w.app with hosts := loadHosts newFile } },
    .Default,
    { Effects.empty with sent := [(chat, "New host added.")], hostsWrites := 1 })

/-- The hostname-remove dialogue step (`main.rs` lines 458-493): when the
key is absent, report and return without touching the file; when present,
rewrite the hosts file with the remaining keys. -/
def handleHostRemove (chat : Int) (text : String) (w : World) : World × DialogueState × Effects :=
  let found := hmContains w.app.hosts text
  let hosts2 := hmRemove w.app.hosts text
  if !found then
    ({ w with app := { w.app with hosts := hosts2 } },
      .Default,
      { Effects.empty with sent := [(chat, "Host " ++ squote ++ text ++ squote ++ " not found.")] })
  else
    let newFile := String.intercalate "\n" (hosts2.map Prod.fst)
    ({ w with app := { w.app with hosts := hosts2 }, hostsFile := newFile },
      .Default,
      { Effects.empty with
          sent := [(chat, "Host " ++ squote ++ text ++ squote ++ " removed.")]
          hostsWrites := 1 })

/-- The dialogue handler (`main.rs` lines 125-497): authentication gate
first, then the command cascade, in source order. -/
def handle (env : Env) (m : Msg) (d : DialogueState) (w : World) :
    World × DialogueState × Effects :=
  match d with
  | .Default =>
    if !(w.app.allowed_chats.contains m.chat) then
      (w, .WaitingForPassword, { Effects.empty with sent := [(m.chat, "Enter password")] })
    else if startsWith m.text "/status" then handleStatus env m.chat w
    else if startsWith m.text "/start" then handleStart m.chat w
    else if startsWith m.text "/stop" then handleStop env m.chat w
    else if startsWith m.text "/add" then handleAddPrompt m.chat w
    else if startsWith m.text "/remove" then handleRemovePrompt m.chat w
    else if startsWith m.text "/hosts" then handleHosts m.chat w
    else if startsWith m.text "/config" then handleConfig m.chat m.text w
    else (w, .Default, Effects.empty)
  | .WaitingForPassword => handlePassword m.chat m.text w
  | .WaitingForHostAdd => handleHostAdd m.chat m.text w
  | .WaitingForHostRemove => handleHostRemove m.chat m.text w

/-- Run a sequence of messages through the handler (each paired with the
dialogue state its chat is in), collecting the total number of periodic
tasks spawned along the way. -/
def runSeq (env : Env) : World → List (Msg × DialogueState) → World × Nat
  | w, [] => (w, 0)
  | w, s :: rest =>
    let r := handle env s.1 s.2 w
    let q := runSeq env r.1 rest
    (q.1, r.2.2.spawned.length + q.2)

/-! ### Lock-extent traces (`main.rs` lock scopes)

Each trace records, in source order, the lock acquisitions/releases and
the slow external operations (probe, file I/O, chat-transport send) of
one code path.  A lock is released where the Rust guard is dropped (end
of its lexical scope or an explicit scope block). -/

/-- Events of a lock-extent trace. -/
inductive LockEv where
  | lockApp
  | unlockApp
  | lockBot
  | unlockBot
  | probeEv
  | fileEv
  | sendEv
deriving DecidableEq

/-- Scan a trace tracking whether the `app_state` and `bot_state` locks
are held; `false` as soon as a slow event happens under either lock. -/
def lockScan : List LockEv → Bool → Bool → Bool
  | [], _, _ => true
  | e :: rest, a, b =>
    match e with
    | .lockApp => lockScan rest true b
    | .unlockApp => lockScan rest false b
    | .lockBot => lockScan rest a true
    | .unlockBot => lockScan rest a false
    | .probeEv => (!a && !b) && lockScan rest a b
    | .fileEv => (!a && !b) && lockScan rest a b
    | .sendEv => (!a && !b) && lockScan rest a b

/-- No slow operation is performed while a lock is held. -/
def noLockAcrossSlow (tr : List LockEv) : Bool := lockScan tr false false

/-- `/status` with `n` hosts (`main.rs` lines 159-219): snapshot under
lock, release, probe concurrently, send the report. -/
def statusTrace (n : Nat) : List LockEv :=
  [.lockApp, .unlockApp] ++ (List.replicate n .probeEv ++ [.sendEv])

/-- `/hosts` (`main.rs` lines 324-340): snapshot under lock, release,
send. -/
def hostsTrace : List LockEv := [.lockApp, .unlockApp, .sendEv]

/-- The `/remove` listing prompt (`main.rs` lines 305-323). -/
def removePromptTrace : List LockEv := [.lockApp, .unlockApp, .sendEv]

/-- The password check (`main.rs` lines 403-424): read the password under
lock, release, then (on a match) push the chat under a scoped lock,
release, send. -/
def passwordTrace : List LockEv := [.lockApp, .unlockApp, .lockApp, .unlockApp, .sendEv]

/-- `/config list` (`main.rs` lines 382-388): clone the config under a
scoped lock, release, send. -/
def configListTrace : List LockEv := [.lockBot, .unlockBot, .sendEv]

/-- The add dialogue step (`main.rs` lines 426-456): the registry guard
taken at line 430 is held across the hosts-file append, the hosts-file
read and the confirmation send (dropped at the end of the match arm). -/
def addDialogTrace : List LockEv := [.lockApp, .fileEv, .fileEv, .sendEv, .unlockApp]

/-- The remove dialogue step, present-key path (`main.rs` lines 458-493):
the registry guard taken at line 460 is held across the hosts-file
rewrite and the confirmation send. -/
def removeDialogTrace : List LockEv := [.lockApp, .fileEv, .sendEv, .unlockApp]

/-- One failing host inside a tick (`main.rs` lines 250-272): the
snapshot is copy-then-release, the probe runs unlocked, but the guard
taken at line 264 is held across the notification send (lines 266-268). -/
def tickNotifyTrace : List LockEv :=
  [.lockApp, .unlockApp, .probeEv, .lockApp, .sendEv, .unlockApp]

/-- `/start` (`main.rs` lines 224-285): the `bot_state` guard taken at
line 224 is held across the reply send (line 227 or line 282). -/
def startCmdTrace : List LockEv := [.lockBot, .sendEv, .unlockBot]

/-- `/stop` (`main.rs` lines 286-297): the `bot_state` guard is held
across the reply send. -/
def stopCmdTrace : List LockEv := [.lockBot, .sendEv, .unlockBot]

/-- `/config edit` (`main.rs` lines 346-380): the `bot_state` guard taken
at line 348 is held across the reply send and the config-file write. -/
def configEditTrace : List LockEv := [.lockBot, .sendEv, .fileEv, .unlockBot]

/-! ### Basic string lemmas -/

lemma str_data_append (a b : String) : (a ++ b).data = a.data ++ b.data := rfl

lemma string_mk_data (s : String) : String.mk s.data = s := rfl

lemma data_eq_nil_iff (s : String) : s.data = [] ↔ s = "" := by
  constructor
  · intro h
    have h2 : String.mk s.data = String.mk [] := by rw [h]
    rw [string_mk_data] at h2
    exact h2
  · intro h
    rw [h]

lemma isPrefixOf_exists : ∀ (p l : List Char), p.isPrefixOf l = true → ∃ t, l = p ++ t := by
  intro p
  induction p with
  | nil => intro l _; exact ⟨l, rfl⟩
  | cons a as ih =>
    intro l h
    cases l with
    | nil => simp [List.isPrefixOf] at h
    | cons b bs =>
      simp only [List.isPrefixOf, Bool.and_eq_true, beq_iff_eq] at h
      obtain ⟨t, ht⟩ := ih bs h.2
      exact ⟨t, by simp [h.1, ht]⟩

/-- A text that starts with `/start` does not start with `/status`
(they differ at index 4), so the `/status` branch is not taken. -/
lemma sw_start_status (s : String) (h : startsWith s "/start" = true) :
    startsWith s "/status" = false := by
  obtain ⟨t, ht⟩ := isPrefixOf_exists _ _ h
  unfold startsWith
  rw [ht, show "/start".data = ['/', 's', 't', 'a', 'r', 't'] from rfl]
  simp +decide [List.isPrefixOf]

/-- A text that starts with `/stop` does not start with `/status`. -/
lemma sw_stop_status (s : String) (h : startsWith s "/stop" = true) :
    startsWith s "/status" = false := by
  obtain ⟨t, ht⟩ := isPrefixOf_exists _ _ h
  unfold startsWith
  rw [ht, show "/stop".data = ['/', 's', 't', 'o', 'p'] from rfl]
  simp +decide [List.isPrefixOf]

/-- A text that starts with `/stop` does not start with `/start`. -/
lemma sw_stop_start (s : String) (h : startsWith s "/stop" = true) :
    startsWith s "/start" = false := by
  obtain ⟨t, ht⟩ := isPrefixOf_exists _ _ h
  unfold startsWith
  rw [ht, show "/stop".data = ['/', 's', 't', 'o', 'p'] from rfl]
  simp +decide [List.isPrefixOf]

/-- The characters of the literal `"/config edit ping_interval "`. -/
def configPrefixChars : List Char :=
  ['/', 'c', 'o', 'n', 'f', 'i', 'g', ' ', 'e', 'd', 'i', 't', ' ',
   'p', 'i', 'n', 'g', '_', 'i', 'n', 't', 'e', 'r', 'v', 'a', 'l', ' ']

lemma configPrefix_data : "/config edit ping_interval ".data = configPrefixChars := rfl

/-- Which command branches a `/config edit ping_interval <v>` text takes. -/
lemma configText_guards (vStr : String) :
    startsWith ("/config edit ping_interval " ++ vStr) "/status" = false ∧
    startsWith ("/config edit ping_interval " ++ vStr) "/start" = false ∧
    startsWith ("/config edit ping_interval " ++ vStr) "/stop" = false ∧
    startsWith ("/config edit ping_interval " ++ vStr) "/add" = false ∧
    startsWith ("/config edit ping_interval " ++ vStr) "/remove" = false ∧
    startsWith ("/config edit ping_interval " ++ vStr) "/hosts" = false ∧
    startsWith ("/config edit ping_interval " ++ vStr) "/config" = true := by
  unfold startsWith
  rw [show ("/config edit ping_interval " ++ vStr).data = configPrefixChars ++ vStr.data from rfl]
  simp only [show "/status".data = ['/', 's', 't', 'a', 't', 'u', 's'] from rfl,
    show "/start".data = ['/', 's', 't', 'a', 'r', 't'] from rfl,
    show "/stop".data = ['/', 's', 't', 'o', 'p'] from rfl,
    show "/add".data = ['/', 'a', 'd', 'd'] from rfl,
    show "/remove".data = ['/', 'r', 'e', 'm', 'o', 'v', 'e'] from rfl,
    show "/hosts".data = ['/', 'h', 'o', 's', 't', 's'] from rfl,
    show "/config".data = ['/', 'c', 'o', 'n', 'f', 'i', 'g'] from rfl,
    configPrefixChars, List.cons_append, List.nil_append]
  simp +decide [List.isPrefixOf]

lemma splitOnChar_no_sep (c : Char) (l : List Char) (h : ∀ x ∈ l, x ≠ c) :
    splitOnChar c l = (l, []) := by
  induction l with
  | nil => rfl
  | cons a t ih =>
    have ha : ¬ a = c := h a (by simp)
    have ht := ih (fun x hx => h x (List.mem_cons_of_mem _ hx))
    simp [splitOnChar, ha, ht]

/-- Splitting `"/config edit ping_interval " ++ v` at spaces yields the
four arguments the source indexes. -/
lemma splitArgs_config (l : List Char) (h : ∀ x ∈ l, x ≠ ' ') :
    splitArgs ' ' (configPrefixChars ++ l) =
      ["/config".data, "edit".data, "ping_interval".data, l] := by
  have hb := splitOnChar_no_sep ' ' l h
  simp +decide [splitArgs, configPrefixChars, splitOnChar, hb]

/-- Lowercasing a `/config edit ping_interval <v>` text only lowercases
the value part (the command prefix is already lowercase). -/
lemma asciiLower_config_text (vStr : String)
    (hlow : vStr.data.map asciiLowerChar = vStr.data) :
    (asciiLowerStr ("/config edit ping_interval " ++ vStr)).data =
      configPrefixChars ++ vStr.data := by
  unfold asciiLowerStr
  show List.map asciiLowerChar ("/config edit ping_interval " ++ vStr).data =
    configPrefixChars ++ vStr.data
  rw [show ("/config edit ping_interval " ++ vStr).data =
    "/config edit ping_interval ".data ++ vStr.data from rfl]
  rw [List.map_append, hlow, configPrefix_data]
  congr 1

/-! ### Registry lemmas -/

/-- Removing an absent key is a no-op on the map. -/
lemma hmRemove_absent (m : List (String × Bool)) (k : String)
    (h : hmContains m k = false) : hmRemove m k = m := by
  unfold hmContains at h
  rw [List.any_eq_false] at h
  unfold hmRemove
  rw [List.filter_eq_self]
  intro a ha
  simp [h a ha]

lemma hmLookup_insert_self (m : List (String × Bool)) (k : String) (v : Bool) :
    hmLookup (hmInsert m k v) k = some v := by
  unfold hmInsert
  by_cases hc : hmContains m k = true
  · rw [if_pos hc]
    unfold hmLookup
    rw [List.find?_map]
    have hpf : ((fun p : String × Bool => p.1 == k) ∘
        (fun p : String × Bool => if p.1 == k then (k, v) else p)) =
        (fun p : String × Bool => p.1 == k) := by
      funext x
      by_cases hx : x.1 = k <;> simp [hx]
    rw [hpf]
    unfold hmContains at hc
    rw [List.any_eq_true] at hc
    obtain ⟨x, hx, hxk⟩ := hc
    have hs : (m.find? (fun p : String × Bool => p.1 == k)).isSome :=
      List.find?_isSome.mpr ⟨x, hx, hxk⟩
    cases hf : m.find? (fun p : String × Bool => p.1 == k) with
    | none => rw [hf] at hs; simp at hs
    | some y =>
      have hy : y.1 = k := by
        simpa using List.find?_some hf
      simp [hf, hy]
  · rw [if_neg hc]
    unfold hmLookup
    rw [List.find?_append]
    have hn : m.find? (fun p : String × Bool => p.1 == k) = none := by
      rw [List.find?_eq_none]
      intro x hx hpx
      exact hc (by rw [hmContains, List.any_eq_true]; exact ⟨x, hx, hpx⟩)
    simp [hn, List.find?]

lemma hmLookup_insert_ne (m : List (String × Bool)) (k k' : String) (v : Bool)
    (h : k' ≠ k) :
    hmLookup (hmInsert m k v) k' = hmLookup m k' := by
  have hkk : (k == k') = false := by
    simp only [beq_eq_false_iff_ne, ne_eq]
    exact fun e => h e.symm
  unfold hmInsert
  by_cases hc : hmContains m k = true
  · rw [if_pos hc]
    unfold hmLookup
    rw [List.find?_map]
    have hpf : ((fun p : String × Bool => p.1 == k') ∘
        (fun p : String × Bool => if p.1 == k then (k, v) else p)) =
        (fun p : String × Bool => p.1 == k') := by
      funext x
      by_cases hx : x.1 = k
      · simp [hx, hkk]
      · simp [hx]
    rw [hpf]
    cases hf : m.find? (fun p : String × Bool => p.1 == k') with
    | none => simp
    | some y =>
      have hy : y.1 = k' := by
        simpa using List.find?_some hf
      have hyk : ¬ y.1 = k := by rw [hy]; exact h
      simp [hyk]
  · rw [if_neg hc]
    unfold hmLookup
    rw [List.find?_append]
    have hone : List.find? (fun p : String × Bool => p.1 == k') [(k, v)] = none := by
      simp [List.find?, hkk]
    simp [hone]

/-! ### `rustLines` and the add/load round trip -/

lemma rustLinesAux_append_nl (ys : List Char) :
    ∀ (xs acc : List Char), rustLinesAux (xs ++ '\n' :: ys) acc =
      rustLinesAux (xs ++ ['\n']) acc ++ rustLinesAux ys [] := by
  intro xs
  induction xs with
  | nil => intro acc; simp [rustLinesAux]
  | cons c t ih =>
    intro acc
    by_cases hc : c = '\n' <;> simp [rustLinesAux, hc, ih]

lemma rustLinesAux_no_nl (ys : List Char) (h : '\n' ∉ ys) :
    ∀ acc, rustLinesAux ys acc =
      if acc.reverse ++ ys = [] then [] else [String.mk (acc.reverse ++ ys)] := by
  induction ys with
  | nil =>
    intro acc
    by_cases ha : acc = []
    · simp [rustLinesAux, ha]
    · simp [rustLinesAux, List.isEmpty_iff, ha, List.reverse_eq_nil_iff]
  | cons y t ih =>
    intro acc
    have hy : ¬ y = '\n' := by
      intro e
      exact h (by simp [e])
    have ht : '\n' ∉ t := fun hm => h (List.mem_cons_of_mem _ hm)
    rw [rustLinesAux]
    simp only [if_neg hy]
    rw [ih ht (y :: acc)]
    simp

/-- Appending `"\n" ++ h` to a file adds exactly the line `h` (for a
nonempty `h` without a newline). -/
lemma rustLines_append_line (f h : String) (hne : h ≠ "") (hnl : '\n' ∉ h.data) :
    rustLines (f ++ "\n" ++ h) = rustLinesAux (f.data ++ ['\n']) [] ++ [h] := by
  unfold rustLines
  have hd : (f ++ "\n" ++ h).data = f.data ++ '\n' :: h.data := by
    rw [str_data_append, str_data_append]
    simp [show ("\n" : String).data = ['\n'] from rfl]
  rw [hd, rustLinesAux_append_nl]
  congr 1
  rw [rustLinesAux_no_nl h.data hnl []]
  have hd2 : ¬ h.data = [] := fun e => hne ((data_eq_nil_iff h).mp e)
  rw [if_neg (by simpa using hd2)]
  rw [List.reverse_nil, List.nil_append, string_mk_data]

/-- After appending a line `h` and reloading, the host `h` is present
exactly once, and with flag `true`, whatever duplicates the file held. -/
lemma loadHosts_roundtrip (f h : String) (hne : h ≠ "") (hnl : '\n' ∉ h.data) :
    (loadHosts (f ++ "\n" ++ h)).countP (fun p => p.1 == h) = 1 ∧
      (h, true) ∈ loadHosts (f ++ "\n" ++ h) := by
  have hmemL : h ∈ rustLines (f ++ "\n" ++ h) := by
    rw [rustLines_append_line f h hne hnl]
    simp
  have hmem : h ∈ (rustLines (f ++ "\n" ++ h)).dedup := List.mem_dedup.mpr hmemL
  have hnd : (rustLines (f ++ "\n" ++ h)).dedup.Nodup := List.nodup_dedup _
  constructor
  · unfold loadHosts
    rw [List.countP_map]
    have hcomp : ((fun p : String × Bool => p.1 == h) ∘ (fun x : String => (x, true))) =
        (fun x : String => x == h) := rfl
    rw [hcomp]
    have hcount := List.count_eq_one_of_mem hnd hmem
    simpa [List.count] using hcount
  · unfold loadHosts
    exact List.mem_map.mpr ⟨h, hmem, rfl⟩

/-! ### Fan-out and tick lemmas -/

/-- The join loop pushes exactly one response per host. -/
lemma statusResponses_length (nmap : String → ProbeResult) (hosts : List (String × Bool)) :
    (statusResponses nmap hosts).length = hosts.length := by
  unfold statusResponses
  have hgen : ∀ (l : List (String × Bool)) (acc : List String),
      (l.foldl (fun acc e => acc ++ [filterBlankLines (statusEntry nmap e.1).2]) acc).length
        = acc.length + l.length := by
    intro l
    induction l with
    | nil => simp
    | cons e t ih =>
      intro acc
      rw [List.foldl_cons, ih]
      simp
      omega
  simpa using hgen hosts []

/-- The notification (if any) one host snapshot entry contributes to a
tick: online hosts whose ping ran and exited non-zero notify once;
everything else (offline-skipped, successful, spawn-error) notifies
nothing. -/
def tickMsgOf (ping : String → ProbeResult) (chat : Int) (e : String × Bool) :
    Option (Int × String) :=
  if e.2 then
    match ping e.1 with
    | .ok success stdout _ =>
      if success then none else some (chat, "HOST OFFLINE -> STDOUT " ++ stdout)
    | .spawnErr _ => none
  else none

lemma tickFold_msgs (ping : String → ProbeResult) (chat : Int) :
    ∀ (l : List (String × Bool)) (acc : List (String × Bool) × List (Int × String)),
      (l.foldl (tickStep ping chat) acc).2 = acc.2 ++ l.filterMap (tickMsgOf ping chat) := by
  intro l
  induction l with
  | nil => simp
  | cons e t ih =>
    intro acc
    rw [List.foldl_cons, ih]
    by_cases hon : e.2 = true
    · cases hp : ping e.1 with
      | ok success stdout stderr =>
        by_cases hs : success = true
        · simp [tickStep, tickMsgOf, hon, hp, hs]
        · simp [tickStep, tickMsgOf, hon, hp, hs]
      | spawnErr err => simp [tickStep, tickMsgOf, hon, hp]
    · simp [tickStep, tickMsgOf, hon]

lemma tickFold_lookup_of_not_mem (ping : String → ProbeResult) (chat : Int) (h : String) :
    ∀ (l : List (String × Bool)) (acc : List (String × Bool) × List (Int × String)),
      (∀ e ∈ l, e.1 ≠ h) →
      hmLookup (l.foldl (tickStep ping chat) acc).1 h = hmLookup acc.1 h := by
  intro l
  induction l with
  | nil => intro acc _; rfl
  | cons e t ih =>
    intro acc hne
    have he1 : e.1 ≠ h := hne e (List.mem_cons_self e t)
    have ht := fun x hx => hne x (List.mem_cons_of_mem _ hx)
    rw [List.foldl_cons, ih _ ht]
    unfold tickStep
    by_cases hon : e.2 = true
    · cases hp : ping e.1 with
      | ok success stdout stderr =>
        by_cases hs : success = true
        · simp [hon, hp, hs]
        · simp [hon, hp, hs, hmLookup_insert_ne _ _ _ _ (Ne.symm he1)]
      | spawnErr err => simp [hon, hp]
    · simp [hon]

/-- An online host whose ping exits non-zero ends the tick marked
offline (keys unique in the snapshot). -/
lemma tickFold_marks (ping : String → ProbeResult) (chat : Int) (h stdout stderr : String)
    (hp : ping h = .ok false stdout stderr) :
    ∀ (l : List (String × Bool)) (acc : List (String × Bool) × List (Int × String)),
      (l.map Prod.fst).Nodup → (h, true) ∈ l →
      hmLookup (l.foldl (tickStep ping chat) acc).1 h = some false := by
  intro l
  induction l with
  | nil => intro acc _ hm; simp at hm
  | cons e t ih =>
    intro acc hnd hm
    rw [List.map_cons, List.nodup_cons] at hnd
    rcases List.mem_cons.mp hm with he | hm2
    · have he1 : e.1 = h := by rw [← he]
      have hnk : ∀ x ∈ t, x.1 ≠ h := by
        intro x hx hxh
        apply hnd.1
        rw [he1, ← hxh]
        exact List.mem_map_of_mem Prod.fst hx
      rw [List.foldl_cons, tickFold_lookup_of_not_mem ping chat h t _ hnk]
      rw [← he]
      unfold tickStep
      simp [hp]
      exact hmLookup_insert_self _ _ _
    · rw [List.foldl_cons]
      exact ih _ hnd.2 hm2

/-- A tick never turns a flag to `true`: if a host is online after the
fold, it was online before. -/
lemma tickFold_no_true (ping : String → ProbeResult) (chat : Int) (h : String) :
    ∀ (l : List (String × Bool)) (acc : List (String × Bool) × List (Int × String)),
      hmLookup (l.foldl (tickStep ping chat) acc).1 h = some true →
      hmLookup acc.1 h = some true := by
  intro l
  induction l with
  | nil => intro acc hh; exact hh
  | cons e t ih =>
    intro acc hh
    rw [List.foldl_cons] at hh
    have h2 := ih _ hh
    unfold tickStep at h2
    by_cases hon : e.2 = true
    · cases hp : ping e.1 with
      | ok success stdout stderr =>
        by_cases hs : success = true
        · simpa [hon, hp, hs] using h2
        · have h3 : hmLookup (hmInsert acc.1 e.1 false) h = some true := by
            simpa [hon, hp, hs] using h2
          by_cases heq : h = e.1
          · rw [heq, hmLookup_insert_self] at h3
            simp at h3
          · rwa [hmLookup_insert_ne _ _ _ _ heq] at h3
      | spawnErr err => simpa [hon, hp] using h2
    · simpa [hon] using h2

/-! ### Frame lemmas for the task slot -/

lemma handleConfig_frame (chat : Int) (text : String) (w : World) :
    (handleConfig chat text w).2.2.spawned = [] ∧
    (handleConfig chat text w).1.bot.task = w.bot.task := by
  simp only [handleConfig]
  split_ifs <;> exact ⟨rfl, rfl⟩

lemma handlePassword_frame (chat : Int) (text : String) (w : World) :
    (handlePassword chat text w).2.2.spawned = [] ∧
    (handlePassword chat text w).1.bot.task = w.bot.task := by
  simp only [handlePassword]
  split_ifs <;> exact ⟨rfl, rfl⟩

lemma handleHostRemove_frame (chat : Int) (text : String) (w : World) :
    (handleHostRemove chat text w).2.2.spawned = [] ∧
    (handleHostRemove chat text w).1.bot.task = w.bot.task := by
  simp only [handleHostRemove]
  split_ifs <;> exact ⟨rfl, rfl⟩

/-- Any single message that is not `/stop` either leaves the task slot
unchanged and spawns nothing, or (only from an empty slot) spawns exactly
one task and installs it in the slot. -/
lemma handle_task_step (env : Env) (m : Msg) (d : DialogueState) (w : World)
    (hstop : startsWith m.text "/stop" = false) :
    ((handle env m d w).2.2.spawned = [] ∧ (handle env m d w).1.bot.task = w.bot.task) ∨
    (w.bot.task = none ∧ ∃ t, (handle env m d w).2.2.spawned = [t] ∧
      (handle env m d w).1.bot.task = some t) := by
  cases d with
  | Default =>
    by_cases hc : m.chat ∈ w.app.allowed_chats
    · by_cases h1 : startsWith m.text "/status" = true
      · left
        simp [handle, hc, h1, handleStatus, Effects.empty]
      · by_cases h2 : startsWith m.text "/start" = true
        · cases ht : w.bot.task with
          | some t =>
            left
            simp [handle, hc, h1, h2, handleStart, ht, Effects.empty]
          | none =>
            right
            refine ⟨rfl, ⟨m.chat, w.bot.config.ping_interval⟩, ?_, ?_⟩ <;>
              simp [handle, hc, h1, h2, handleStart, ht, Effects.empty]
        · by_cases h3 : startsWith m.text "/add" = true
          · left
            simp [handle, hc, h1, h2, hstop, h3, handleAddPrompt, Effects.empty]
          · by_cases h4 : startsWith m.text "/remove" = true
            · left
              simp [handle, hc, h1, h2, hstop, h3, h4, handleRemovePrompt, Effects.empty]
            · by_cases h5 : startsWith m.text "/hosts" = true
              · left
                simp [handle, hc, h1, h2, hstop, h3, h4, h5, handleHosts, Effects.empty]
              · by_cases h6 : startsWith m.text "/config" = true
                · left
                  have hf := handleConfig_frame m.chat m.text w
                  simp [handle, hc, h1, h2, hstop, h3, h4, h5, h6, hf.1, hf.2]
                · left
                  simp [handle, hc, h1, h2, hstop, h3, h4, h5, h6, Effects.empty]
    · left
      simp [handle, hc, Effects.empty]
  | WaitingForPassword =>
    left
    have hf := handlePassword_frame m.chat m.text w
    simpa [handle] using hf
  | WaitingForHostAdd =>
    left
    simp [handle, handleHostAdd, Effects.empty]
  | WaitingForHostRemove =>
    left
    have hf := handleHostRemove_frame m.chat m.text w
    simpa [handle] using hf

/-- As long as no `/stop` arrives, an occupied slot keeps its task and no
new loop is spawned. -/
lemma runSeq_keeps (env : Env) (steps : List (Msg × DialogueState)) :
    ∀ (w : World) (t : SpawnedTask), w.bot.task = some t →
      (∀ s ∈ steps, startsWith s.1.text "/stop" = false) →
      (runSeq env w steps).1.bot.task = some t ∧ (runSeq env w steps).2 = 0 := by
  induction steps with
  | nil =>
    intro w t hw _
    exact ⟨hw, rfl⟩
  | cons s rest ih =>
    intro w t hw hall
    have hstop := hall s (List.mem_cons_self s rest)
    have hrest := fun x hx => hall x (List.mem_cons_of_mem _ hx)
    rcases handle_task_step env s.1 s.2 w hstop with ⟨h1, h2⟩ | ⟨h0, _⟩
    · have hne := ih (handle env s.1 s.2 w).1 t (by rw [h2]; exact hw) hrest
      simp only [runSeq]
      rw [h1]
      exact ⟨hne.1, by simp [hne.2]⟩
    · rw [hw] at h0
      cases h0

/-- A stop-free message sequence spawns at most one periodic loop. -/
lemma runSeq_spawn_le_one (env : Env) (steps : List (Msg × DialogueState)) :
    ∀ (w : World),
      (∀ s ∈ steps, startsWith s.1.text "/stop" = false) →
      (runSeq env w steps).2 ≤ 1 := by
  induction steps with
  | nil =>
    intro w _
    simp [runSeq]
  | cons s rest ih =>
    intro w hall
    have hstop := hall s (List.mem_cons_self s rest)
    have hrest := fun x hx => hall x (List.mem_cons_of_mem _ hx)
    rcases handle_task_step env s.1 s.2 w hstop with ⟨h1, _⟩ | ⟨_, t, h1, h2⟩
    · have hle := ih (handle env s.1 s.2 w).1 hrest
      simp only [runSeq]
      rw [h1]
      simpa using hle
    · have hk := runSeq_keeps env rest (handle env s.1 s.2 w).1 t h2 hrest
      simp only [runSeq]
      rw [h1, hk.2]
      simp

/-- Probes with no lock held never trip the scanner. -/
lemma lockScan_replicate_probe (rest : List LockEv) :
    ∀ n, lockScan (List.replicate n .probeEv ++ rest) false false =
      lockScan rest false false := by
  intro n
  induction n with
  | zero => simp
  | succ k ih => simpa [List.replicate_succ, lockScan] using ih

/-! ### Concrete fixtures for witnesses and counterexamples -/

/-- Environment in which every probe process fails to spawn and the
cancellation send succeeds. -/
def envSpawnFail : Env :=
  ⟨fun _ => .spawnErr "No such file or directory (os error 2)",
   fun _ => .spawnErr "No such file or directory (os error 2)", true, "0.00"⟩

/-- Environment in which every probe runs but exits non-zero. -/
def envExitFail : Env :=
  ⟨fun _ => .ok false "nmap out" "nmap err",
   fun _ => .ok false "3 packets transmitted, 0 received" "", true, "0.00"⟩

/-- Environment in which every probe runs and exits successfully. -/
def envOk : Env :=
  ⟨fun _ => .ok true "nmap out" "",
   fun _ => .ok true "3 packets transmitted, 3 received" "", true, "0.00"⟩

/-- World with chat 1 authenticated, one monitored host, empty task slot. -/
def wBase : World :=
  ⟨⟨[1], [("10.0.0.1", true)], "pw"⟩, ⟨none, none, ⟨60⟩⟩, "10.0.0.1", ⟨60⟩, []⟩

/-- World with chat 1 authenticated, one monitored host, the task slot
occupied by the loop of chat 1 with captured interval 60, and that loop
still live. -/
def wRun : World :=
  ⟨⟨[1], [("10.0.0.1", true)], "pw"⟩, ⟨some ⟨1, 60⟩, some 1, ⟨60⟩⟩,
   "10.0.0.1", ⟨60⟩, [⟨1, 60⟩]⟩

/-! ### Claim theorems -/

/-- C6: every hostname written via the add dialogue and reloaded via the
hosts-file load appears exactly once in the in-memory registry, with
`online = true`, however many duplicate lines the file already contains
(the load deduplicates and defaults every entry to online).  Stated for a
hostname that is a single nonempty line, which is what one add writes. -/
theorem c6_add_roundtrip (env : Env) (m : Msg) (w : World)
    (hne : m.text ≠ "") (hnl : '\n' ∉ m.text.data) :
    ((handle env m .WaitingForHostAdd w).1.app.hosts).countP (fun p => p.1 == m.text) = 1 ∧
    (m.text, true) ∈ (handle env m .WaitingForHostAdd w).1.app.hosts := by
  have h := loadHosts_roundtrip w.hostsFile m.text hne hnl
  simpa [handle, handleHostAdd] using h

/-- Witness for C6 at a concrete input: the hosts file already contains
the line `10.0.0.1`; adding `10.0.0.1` again leaves exactly one copy. -/
theorem c6_add_roundtrip_witness :
    ("10.0.0.1" : String) ≠ "" ∧ '\n' ∉ ("10.0.0.1" : String).data ∧
    (((handle envSpawnFail ⟨1, "10.0.0.1"⟩ .WaitingForHostAdd wBase).1.app.hosts).countP
        (fun p => p.1 == "10.0.0.1") = 1 ∧
      ("10.0.0.1", true) ∈ (handle envSpawnFail ⟨1, "10.0.0.1"⟩ .WaitingForHostAdd wBase).1.app.hosts) :=
  ⟨by decide, by decide,
    c6_add_roundtrip envSpawnFail ⟨1, "10.0.0.1"⟩ wBase (by decide) (by decide)⟩

/-- C7: removing a hostname that is absent from the registry reports
"not found", performs no hosts-file write (`hostsWrites = 0` and the file
contents are unchanged), and leaves the whole world — in particular the
in-memory registry — unchanged. -/
theorem c7_remove_absent (env : Env) (m : Msg) (w : World)
    (h : hmContains w.app.hosts m.text = false) :
    handle env m .WaitingForHostRemove w =
      (w, .Default,
        { Effects.empty with
            sent := [(m.chat, "Host " ++ squote ++ m.text ++ squote ++ " not found.")] }) := by
  have hr := hmRemove_absent w.app.hosts m.text h
  simp [handle, handleHostRemove, h, hr]

/-- Witness for C7 at a concrete input. -/
theorem c7_remove_absent_witness :
    hmContains wBase.app.hosts "absent.example" = false ∧
    handle envSpawnFail ⟨1, "absent.example"⟩ .WaitingForHostRemove wBase =
      (wBase, .Default,
        { Effects.empty with
            sent := [(1, "Host " ++ squote ++ "absent.example" ++ squote ++ " not found.")] }) :=
  ⟨by decide, c7_remove_absent envSpawnFail ⟨1, "absent.example"⟩ wBase (by decide)⟩

/-- C8: any message (whatever its text, `/status` included) from a chat
that is not in the authenticated set only produces the password prompt
and a transition to the password-waiting state: no probe is launched, no
file is written, no task is spawned, and the world — including the host
registry — is unchanged. -/
theorem c8_auth_gate (env : Env) (m : Msg) (w : World)
    (hc : m.chat ∉ w.app.allowed_chats) :
    handle env m .Default w =
      (w, .WaitingForPassword, { Effects.empty with sent := [(m.chat, "Enter password")] }) := by
  simp [handle, hc]

/-- Witness for C8 at a concrete input: an unauthenticated chat sends
`/status`. -/
theorem c8_auth_gate_witness :
    (2 : Int) ∉ wBase.app.allowed_chats ∧
    handle envSpawnFail ⟨2, "/status"⟩ .Default wBase =
      (wBase, .WaitingForPassword, { Effects.empty with sent := [(2, "Enter password")] }) :=
  ⟨by decide, c8_auth_gate envSpawnFail ⟨2, "/status"⟩ wBase (by decide)⟩

/-- C9: a `/status` invocation leaves the whole world (in particular the
online flags) unchanged; a periodic tick never changes a flag to `true`
(a host online after the tick was online before); and the registry the
add dialogue installs has every host flagged `true` (the reload discards
all previous offline markings). -/
theorem c9_online_flag :
    (∀ env m w, m.chat ∈ w.app.allowed_chats → startsWith m.text "/status" = true →
        (handle env m .Default w).1 = w) ∧
    (∀ (ping : String → ProbeResult) (t : SpawnedTask) (w : World) (h : String),
        hmLookup (runTick ping t w).1.app.hosts h = some true →
        hmLookup w.app.hosts h = some true) ∧
    (∀ env m w, ∀ p ∈ (handle env m .WaitingForHostAdd w).1.app.hosts, p.2 = true) := by
  refine ⟨?_, ?_, ?_⟩
  · intro env m w hc hs
    simp [handle, hc, hs, handleStatus]
  · intro ping t w h hh
    have h2 : hmLookup (w.app.hosts.foldl (tickStep ping t.chat) (w.app.hosts, [])).1 h =
        some true := hh
    exact tickFold_no_true ping t.chat h w.app.hosts _ h2
  · intro env m w p hp
    have h2 : p ∈ loadHosts (w.hostsFile ++ "\n" ++ m.text) := by
      simpa [handle, handleHostAdd] using hp
    unfold loadHosts at h2
    obtain ⟨x, _, hx⟩ := List.mem_map.mp h2
    rw [← hx]

/-- Witness for C9 at concrete inputs: a `/status` from the authenticated
chat; a tick in which the ping of the sole host runs and succeeds, so the
host is still online after the tick (`some true`, evaluated) and the
theorem recovers that it was online before; and an add of a new host. -/
theorem c9_online_flag_witness :
    ((1 : Int) ∈ wBase.app.allowed_chats ∧ startsWith "/status" "/status" = true ∧
      (handle envExitFail ⟨1, "/status"⟩ .Default wBase).1 = wBase) ∧
    (hmLookup (runTick envOk.ping ⟨1, 60⟩ wRun).1.app.hosts "10.0.0.1" = some true ∧
      hmLookup wRun.app.hosts "10.0.0.1" = some true) ∧
    (∀ p ∈ (handle envExitFail ⟨1, "10.0.0.2"⟩ .WaitingForHostAdd wRun).1.app.hosts,
      p.2 = true) :=
  ⟨⟨by decide, by decide,
      c9_online_flag.1 envExitFail ⟨1, "/status"⟩ wBase (by decide) (by decide)⟩,
    ⟨by decide,
      c9_online_flag.2.1 envOk.ping ⟨1, 60⟩ wRun "10.0.0.1" (by decide)⟩,
    fun p hp => c9_online_flag.2.2 envExitFail ⟨1, "10.0.0.2"⟩ wRun p hp⟩

/-- C1: a `/start` arriving while the task slot is occupied is rejected —
the operator is told a task is already active, nothing is spawned, and
the whole world (task handle, owning chat, registry) is unchanged; and
over any stop-free sequence of messages, an occupied slot keeps its task
with zero new spawns, while from any state at most one spawn ever
succeeds (the singleton invariant). -/
theorem c1_start_singleton :
    (∀ env m w t, w.bot.task = some t → m.chat ∈ w.app.allowed_chats →
        startsWith m.text "/start" = true →
        handle env m .Default w =
          (w, .Default, { Effects.empty with sent := [(m.chat, "Task is already running!")] })) ∧
    (∀ env steps w t, w.bot.task = some t →
        (∀ s ∈ steps, startsWith s.1.text "/stop" = false) →
        (runSeq env w steps).1.bot.task = some t ∧ (runSeq env w steps).2 = 0) ∧
    (∀ env steps w, (∀ s ∈ steps, startsWith s.1.text "/stop" = false) →
        (runSeq env w steps).2 ≤ 1) := by
  refine ⟨?_, ?_, ?_⟩
  · intro env m w t ht hc hs
    have g1 := sw_start_status m.text hs
    simp [handle, hc, g1, hs, handleStart, ht]
  · intro env steps w t hw hall
    exact runSeq_keeps env steps w t hw hall
  · intro env steps w hall
    exact runSeq_spawn_le_one env steps w hall

/-- Witness for C1 at concrete inputs: a second and third `/start` while
the slot is occupied, and a double `/start` from the empty slot. -/
theorem c1_start_singleton_witness :
    (wRun.bot.task = some ⟨1, 60⟩ ∧ (1 : Int) ∈ wRun.app.allowed_chats ∧
      startsWith "/start" "/start" = true ∧
      handle envSpawnFail ⟨1, "/start"⟩ .Default wRun =
        (wRun, .Default, { Effects.empty with sent := [(1, "Task is already running!")] })) ∧
    (runSeq envSpawnFail wRun
        [(⟨1, "/start"⟩, .Default), (⟨1, "/start"⟩, .Default)]).1.bot.task = some ⟨1, 60⟩ ∧
    (runSeq envSpawnFail wBase
        [(⟨1, "/start"⟩, .Default), (⟨1, "/start"⟩, .Default)]).2 ≤ 1 :=
  ⟨⟨rfl, by decide, by decide,
      c1_start_singleton.1 envSpawnFail ⟨1, "/start"⟩ wRun ⟨1, 60⟩ rfl (by decide) (by decide)⟩,
    (c1_start_singleton.2.1 envSpawnFail
      [(⟨1, "/start"⟩, .Default), (⟨1, "/start"⟩, .Default)] wRun ⟨1, 60⟩ rfl (by decide)).1,
    c1_start_singleton.2.2 envSpawnFail
      [(⟨1, "/start"⟩, .Default), (⟨1, "/start"⟩, .Default)] wBase (by decide)⟩

/-- C2 counterexample: a host set of size one whose nmap probe fails to
spawn.  The probe produces the single failure line
`PING FAILED TO HOST -> 10.0.0.1, error -> ...`, but the combination step
drops the first line of every per-host entry, so the report the operator
receives is only the elapsed-time footer: the host is not represented in
the `/status` report at all, refuting the claim that a spawn failure
contributes a visible failure line. -/
theorem c2_counterexample :
    wBase.app.hosts.map Prod.fst = ["10.0.0.1"] ∧
    envSpawnFail.nmap "10.0.0.1" = .spawnErr "No such file or directory (os error 2)" ∧
    (handle envSpawnFail ⟨1, "/status"⟩ .Default wBase).2.2.sent =
      [(1, "\n\nNmap scan finnished in 0.00 seconds")] ∧
    strContainsSub "\n\nNmap scan finnished in 0.00 seconds" "10.0.0.1" = false :=
  ⟨rfl, rfl, by decide, by decide⟩

/-- C2 (amended): the `/status` join accounts for every host — the
internal responses list has exactly one entry (success or explicit
failure, spawn failures included) per host of the snapshot — and the
message sent is the combination of those entries with each entry's first
line removed plus the elapsed-time footer; a host whose whole entry is a
single line (as for a spawn failure) is therefore absent from the sent
report. -/
theorem c2_fanin_amended (env : Env) (m : Msg) (w : World)
    (hc : m.chat ∈ w.app.allowed_chats)
    (hs : startsWith m.text "/status" = true) :
    (statusResponses env.nmap w.app.hosts).length = w.app.hosts.length ∧
    (handle env m .Default w).2.2.sent = [(m.chat, statusReport env w.app.hosts)] ∧
    (handle env m .Default w).2.2.probed = w.app.hosts.map Prod.fst := by
  refine ⟨statusResponses_length _ _, ?_, ?_⟩ <;> simp [handle, hc, hs, handleStatus]

/-- Witness for C2 (amended) at a concrete input. -/
theorem c2_fanin_amended_witness :
    ((1 : Int) ∈ wBase.app.allowed_chats ∧ startsWith "/status" "/status" = true) ∧
    ((statusResponses envSpawnFail.nmap wBase.app.hosts).length = wBase.app.hosts.length ∧
      (handle envSpawnFail ⟨1, "/status"⟩ .Default wBase).2.2.sent =
        [(1, statusReport envSpawnFail wBase.app.hosts)] ∧
      (handle envSpawnFail ⟨1, "/status"⟩ .Default wBase).2.2.probed =
        wBase.app.hosts.map Prod.fst) :=
  ⟨⟨by decide, by decide⟩,
    c2_fanin_amended envSpawnFail ⟨1, "/status"⟩ wBase (by decide) (by decide)⟩

/-- C3 counterexample: the sole host is online and its ping probe fails
to spawn during a tick.  The tick leaves the whole world unchanged — the
host is still flagged online — and sends no notification, refuting the
claim that a process-spawn error marks the host offline and notifies the
owning chat (the source only logs it, `main.rs` line 271). -/
theorem c3_counterexample :
    envSpawnFail.ping "10.0.0.1" = .spawnErr "No such file or directory (os error 2)" ∧
    hmLookup wRun.app.hosts "10.0.0.1" = some true ∧
    runTick envSpawnFail.ping ⟨1, 60⟩ wRun = (wRun, []) :=
  ⟨rfl, by decide, rfl⟩

/-- C3 (amended): during a tick, every online host whose ping probe runs
and exits non-zero is marked offline in the registry, and the
notification list is exactly one `HOST OFFLINE -> STDOUT ...` message to
the owning chat per such host (offline hosts are skipped, successful and
spawn-failed probes notify nothing). -/
theorem c3_tick_amended (ping : String → ProbeResult) (t : SpawnedTask) (w : World)
    (h stdout stderr : String)
    (hnd : (w.app.hosts.map Prod.fst).Nodup)
    (hmem : (h, true) ∈ w.app.hosts)
    (hp : ping h = .ok false stdout stderr) :
    hmLookup (runTick ping t w).1.app.hosts h = some false ∧
    (runTick ping t w).2 = w.app.hosts.filterMap (tickMsgOf ping t.chat) := by
  constructor
  · show hmLookup (w.app.hosts.foldl (tickStep ping t.chat) (w.app.hosts, [])).1 h = some false
    exact tickFold_marks ping t.chat h stdout stderr hp w.app.hosts _ hnd hmem
  · show (w.app.hosts.foldl (tickStep ping t.chat) (w.app.hosts, [])).2 =
      w.app.hosts.filterMap (tickMsgOf ping t.chat)
    rw [tickFold_msgs]
    simp

/-- Witness for C3 (amended) at a concrete input: the ping of the sole
online host exits non-zero; the host ends offline and exactly one
notification is produced. -/
theorem c3_tick_amended_witness :
    ((wRun.app.hosts.map Prod.fst).Nodup ∧ ("10.0.0.1", true) ∈ wRun.app.hosts ∧
      envExitFail.ping "10.0.0.1" = .ok false "3 packets transmitted, 0 received" "") ∧
    (hmLookup (runTick envExitFail.ping ⟨1, 60⟩ wRun).1.app.hosts "10.0.0.1" = some false ∧
      (runTick envExitFail.ping ⟨1, 60⟩ wRun).2 =
        wRun.app.hosts.filterMap (tickMsgOf envExitFail.ping 1)) :=
  ⟨⟨by decide, by decide, rfl⟩,
    c3_tick_amended envExitFail.ping ⟨1, 60⟩ wRun "10.0.0.1"
      "3 packets transmitted, 0 received" "" (by decide) (by decide) rfl⟩

/-- C4 counterexample: `/stop` with the slot occupied and the signal send
succeeding.  After the call the task slot is already `none` — the
`task.take()` in the `/stop` handler itself emptied it — while the
periodic loop is still live (its cleanup has not run), refuting the claim
that it is the loop's cleanup and not the `/stop` call that releases the
slot. -/
theorem c4_counterexample :
    wRun.bot.task = some ⟨1, 60⟩ ∧
    wRun.running = [⟨1, 60⟩] ∧
    (handle envSpawnFail ⟨1, "/stop"⟩ .Default wRun).1.bot.task = none ∧
    (handle envSpawnFail ⟨1, "/stop"⟩ .Default wRun).1.running = [⟨1, 60⟩] ∧
    (handle envSpawnFail ⟨1, "/stop"⟩ .Default wRun).2.2.sent = [(1, "Task stopped.")] :=
  ⟨rfl, rfl, by decide, by decide, by decide⟩

/-- C4 (amended): `/stop` reports "No task is running." and changes
nothing when the slot is empty; when the slot is occupied, the call
itself takes the sender out of the slot (the slot is empty as soon as the
handler runs), sends the one-shot signal, and reports "Task stopped."
exactly when the send is accepted ("Failed to stop task." otherwise); the
loop's own cleanup additionally writes `none` to the slot when the loop
exits. -/
theorem c4_stop_amended :
    (∀ env m w, m.chat ∈ w.app.allowed_chats → w.bot.task = none →
        startsWith m.text "/stop" = true →
        handle env m .Default w =
          (w, .Default, { Effects.empty with sent := [(m.chat, "No task is running.")] })) ∧
    (∀ env m w t, m.chat ∈ w.app.allowed_chats → w.bot.task = some t →
        startsWith m.text "/stop" = true →
        (handle env m .Default w).1 = { w with bot := { w.bot with task := none } } ∧
        (handle env m .Default w).2.2.sent =
          [(m.chat, if env.sendOk then "Task stopped." else "Failed to stop task.")]) ∧
    (∀ t w, (loopCleanup t w).bot.task = none ∧ (loopCleanup t w).app = w.app) := by
  refine ⟨?_, ?_, ?_⟩
  · intro env m w hc ht hs
    have g1 := sw_stop_status m.text hs
    have g2 := sw_stop_start m.text hs
    simp [handle, hc, g1, g2, hs, handleStop, ht]
  · intro env m w t hc ht hs
    have g1 := sw_stop_status m.text hs
    have g2 := sw_stop_start m.text hs
    by_cases hok : env.sendOk = true
    · simp [handle, hc, g1, g2, hs, handleStop, ht, hok]
    · simp [handle, hc, g1, g2, hs, handleStop, ht, hok]
  · intro t w
    exact ⟨rfl, rfl⟩

/-- Witness for C4 (amended) at concrete inputs. -/
theorem c4_stop_amended_witness :
    (wBase.bot.task = none ∧
      handle envSpawnFail ⟨1, "/stop"⟩ .Default wBase =
        (wBase, .Default, { Effects.empty with sent := [(1, "No task is running.")] })) ∧
    ((handle envSpawnFail ⟨1, "/stop"⟩ .Default wRun).1 =
        { wRun with bot := { wRun.bot with task := none } } ∧
      (handle envSpawnFail ⟨1, "/stop"⟩ .Default wRun).2.2.sent =
        [(1, if envSpawnFail.sendOk then "Task stopped." else "Failed to stop task.")]) ∧
    ((loopCleanup ⟨1, 60⟩ wRun).bot.task = none ∧ (loopCleanup ⟨1, 60⟩ wRun).app = wRun.app) :=
  ⟨⟨rfl, c4_stop_amended.1 envSpawnFail ⟨1, "/stop"⟩ wBase (by decide) rfl (by decide)⟩,
    c4_stop_amended.2.1 envSpawnFail ⟨1, "/stop"⟩ wRun ⟨1, 60⟩ (by decide) rfl (by decide),
    c4_stop_amended.2.2 ⟨1, 60⟩ wRun⟩

/-- C5: the periodic loop runs with the interval captured at `/start`
time.  A `/config edit ping_interval <v>` performed while a task is
running only rewrites the shared config and the config file: the task
slot, the running loops and hence their captured intervals are untouched:
and a `/start` from an empty slot spawns its loop with the interval read
from the config at that moment, so an edited value takes effect on the
next `/start`. -/
theorem c5_interval_captured :
    (∀ env chat w vStr v, chat ∈ w.app.allowed_chats →
        vStr.data.map asciiLowerChar = vStr.data →
        (∀ x ∈ vStr.data, x ≠ ' ') →
        parseU64 vStr.data = some v →
        handle env ⟨chat, "/config edit ping_interval " ++ vStr⟩ .Default w =
          ({ w with bot := { w.bot with config := ⟨v⟩ }, configFile := ⟨v⟩ },
            .Default,
            { Effects.empty with
                sent := [(chat, "Ping interval changed to " ++ toString v)],
                configWrites := 1 })) ∧
    (∀ env m w, m.chat ∈ w.app.allowed_chats → w.bot.task = none →
        startsWith m.text "/start" = true →
        (handle env m .Default w).1.bot.task = some ⟨m.chat, w.bot.config.ping_interval⟩ ∧
        (handle env m .Default w).2.2.spawned = [⟨m.chat, w.bot.config.ping_interval⟩] ∧
        (handle env m .Default w).1.running =
          w.running ++ [⟨m.chat, w.bot.config.ping_interval⟩]) := by
  constructor
  · intro env chat w vStr v hc hlow hns hp
    obtain ⟨g1, g2, g3, g4, g5, g6, g7⟩ := configText_guards vStr
    simp only [handle]
    rw [handleConfig]
    rw [asciiLower_config_text vStr hlow, splitArgs_config vStr.data hns]
    simp [hc, g1, g2, g3, g4, g5, g6, g7, hp]
  · intro env m w hc ht hs
    have g1 := sw_start_status m.text hs
    refine ⟨?_, ?_, ?_⟩ <;> simp [handle, hc, g1, hs, handleStart, ht]

/-- Witness for C5 at concrete inputs: editing the interval to 30 while
the task of `wRun` is live, then starting from an empty slot whose config
already holds 30. -/
theorem c5_interval_captured_witness :
    (handle envSpawnFail ⟨1, "/config edit ping_interval " ++ "30"⟩ .Default wRun =
      ({ wRun with bot := { wRun.bot with config := ⟨30⟩ }, configFile := ⟨30⟩ },
        .Default,
        { Effects.empty with
            sent := [(1, "Ping interval changed to " ++ toString 30)],
            configWrites := 1 })) ∧
    ((handle envSpawnFail ⟨1, "/start"⟩ .Default wBase).1.bot.task = some ⟨1, 60⟩ ∧
      (handle envSpawnFail ⟨1, "/start"⟩ .Default wBase).2.2.spawned = [⟨1, 60⟩] ∧
      (handle envSpawnFail ⟨1, "/start"⟩ .Default wBase).1.running =
        wBase.running ++ [⟨1, 60⟩]) :=
  ⟨c5_interval_captured.1 envSpawnFail 1 wRun "30" 30
      (by decide) (by decide) (by decide) (by decide),
    c5_interval_captured.2 envSpawnFail ⟨1, "/start"⟩ wBase (by decide) rfl (by decide)⟩

/-- C10 counterexample: the add-dialogue path (`main.rs` lines 426-456)
holds the registry lock across the hosts-file append, the reload read and
the confirmation send, so its lock-extent trace violates the
no-slow-operation-under-lock discipline the claim asserts for every code
path. -/
theorem c10_counterexample : noLockAcrossSlow addDialogTrace = false := by decide

/-- C10 (amended): the copy-then-release discipline holds for the
registry reads (the `/status` snapshot and fan-out, the `/hosts` and
`/remove` listings, the password check, `/config list`), but it is
violated by the add and remove dialogue mutations (registry lock held
across hosts-file I/O and the reply send), by the tick's offline marking
(registry lock held across the notification send), and by `/start`,
`/stop` and `/config edit` (task-slot lock held across the reply send
and, for edit, the config-file write). -/
theorem c10_lock_discipline_amended :
    (∀ n, noLockAcrossSlow (statusTrace n) = true) ∧
    noLockAcrossSlow hostsTrace = true ∧
    noLockAcrossSlow removePromptTrace = true ∧
    noLockAcrossSlow passwordTrace = true ∧
    noLockAcrossSlow configListTrace = true ∧
    noLockAcrossSlow addDialogTrace = false ∧
    noLockAcrossSlow removeDialogTrace = false ∧
    noLockAcrossSlow tickNotifyTrace = false ∧
    noLockAcrossSlow startCmdTrace = false ∧
    noLockAcrossSlow stopCmdTrace = false ∧
    noLockAcrossSlow configEditTrace = false := by
  refine ⟨?_, by decide, by decide, by decide, by decide, by decide,
    by decide, by decide, by decide, by decide, by decide⟩
  intro n
  unfold noLockAcrossSlow statusTrace
  simp [lockScan, lockScan_replicate_probe]

end NotifBot
